import Mathlib

/-!
Verification of the AI caption-generation subsystem of the INSTALITE
application (server-side caption services).

The development shallowly embeds the two caption service variants found in
the server sources:

* the multi-caption `CaptionService` backed by a conversational vision
  provider — sliding-window rate limiting (`checkRateLimit`,
  `recordRequest`, `getRateLimitStatus`), demo-caption fallback
  (`getDemoCaptions`), provider-output normalization, and the two entry
  points `generateCaptions` (path-based) and `generateCaptionsFromBuffer`;

* the single-caption `CaptionService` backed by a dedicated captioning
  provider — upload-root path validation (`isValidPath`) and
  `generateCaption`.

JavaScript string primitives used by the sources (`trim`, `split`,
`startsWith`, `path.resolve`) are embedded as executable Lean functions on
`String`/`List Char`.
-/

namespace Instalite

/-! ## JavaScript string primitives -/

/-- Whitespace characters recognized by the JavaScript `String.prototype.trim`
(the ASCII subset that can occur in provider text). -/
def jsWhitespace (c : Char) : Bool :=
  c = ' ' || c = '\t' || c = '\n' || c = '\r' || c = '\x0b' || c = '\x0c'

/-- Trimming on character lists: drop whitespace from the front and the back. -/
def trimChars (l : List Char) : List Char :=
  ((l.dropWhile jsWhitespace).reverse.dropWhile jsWhitespace).reverse

/-- `String.prototype.trim`. -/
def jsTrim (s : String) : String :=
  ⟨trimChars s.data⟩

/-- `String.prototype.startsWith`: the second string is a prefix of the first. -/
def jsStartsWith (s pre : String) : Bool :=
  decide (pre.data <+: s.data)

/-- Split a character list at every occurrence of `sep`, keeping empty
pieces — the semantics of the JavaScript `String.prototype.split` with a
single-character separator (structural recursion, so the kernel can
evaluate it). -/
def splitOnChar (sep : Char) : List Char → List (List Char)
  | [] => [[]]
  | c :: rest =>
    match splitOnChar sep rest with
    | [] => [[c]]
    | h :: t => if c = sep then [] :: h :: t else (c :: h) :: t

/-- `String.prototype.split` with a single-character separator. -/
def jsSplit (s : String) (sep : Char) : List String :=
  (splitOnChar sep s.data).map (fun l => ⟨l⟩)

/-! ## Sliding-window rate limiter

Embeds `checkRateLimit` / `recordRequest` / `getRateLimitStatus` of the
multi-caption `CaptionService`.  Timestamps are integers (milliseconds, as
produced by `Date.now()`). -/

/-- Rate limiting configuration (`RateLimitConfig` in the source). -/
structure RateLimitConfig where
  maxRequestsPerMinute : Nat
  maxRequestsPerHour : Nat
deriving Repr, DecidableEq

/-- Rate limit tracking state (`RateLimitState` in the source). -/
structure RateLimitState where
  requestTimestamps : List Int
deriving Repr, DecidableEq

/-- `checkRateLimit`: prune entries older than one hour, count the last
minute and the last hour, and admit only when both counts are below their
caps.  Returns the admission verdict together with the pruned state (the
source mutates `this.rateLimitState` in place while pruning). -/
def checkRateLimit (cfg : RateLimitConfig) (st : RateLimitState) (now : Int) :
    Bool × RateLimitState :=
  let oneMinuteAgo : Int := now - 60 * 1000
  let oneHourAgo : Int := now - 60 * 60 * 1000
  let pruned := st.requestTimestamps.filter (fun ts => decide (ts > oneHourAgo))
  let requestsInLastMinute :=
    (pruned.filter (fun ts => decide (ts > oneMinuteAgo))).length
  let requestsInLastHour := pruned.length
  if requestsInLastMinute ≥ cfg.maxRequestsPerMinute then (false, ⟨pruned⟩)
  else if requestsInLastHour ≥ cfg.maxRequestsPerHour then (false, ⟨pruned⟩)
  else (true, ⟨pruned⟩)

/-- `recordRequest`: push the current timestamp. -/
def recordRequest (st : RateLimitState) (now : Int) : RateLimitState :=
  ⟨st.requestTimestamps ++ [now]⟩

/-- The status record returned by `getRateLimitStatus`. -/
structure RateLimitStatus where
  requestsInLastMinute : Nat
  requestsInLastHour : Nat
  maxRequestsPerMinute : Nat
  maxRequestsPerHour : Nat
deriving Repr, DecidableEq

/-- `getRateLimitStatus`: prune entries older than one hour and report the
short- and long-window counts besides the configured maxima.  Returns the
status together with the pruned state. -/
def getRateLimitStatus (cfg : RateLimitConfig) (st : RateLimitState) (now : Int) :
    RateLimitStatus × RateLimitState :=
  let oneMinuteAgo : Int := now - 60 * 1000
  let oneHourAgo : Int := now - 60 * 60 * 1000
  let pruned := st.requestTimestamps.filter (fun ts => decide (ts > oneHourAgo))
  let requestsInLastMinute :=
    (pruned.filter (fun ts => decide (ts > oneMinuteAgo))).length
  let requestsInLastHour := pruned.length
  (⟨requestsInLastMinute, requestsInLastHour,
    cfg.maxRequestsPerMinute, cfg.maxRequestsPerHour⟩, ⟨pruned⟩)

/-- One admission round as performed by the generate operations: run
`checkRateLimit` at time `t1` and, on admission, `recordRequest` at time
`t2` (the source calls `Date.now()` separately in each). -/
def admitAt (cfg : RateLimitConfig) (st : RateLimitState) (t1 t2 : Int) :
    Bool × RateLimitState :=
  match checkRateLimit cfg st t1 with
  | (true, st') => (true, recordRequest st' t2)
  | (false, st') => (false, st')

/-- A whole sequence of admission rounds, each at a single instant. -/
def admitSeq (cfg : RateLimitConfig) (st : RateLimitState) :
    List Int → List Bool × RateLimitState
  | [] => ([], st)
  | t :: ts =>
    let r := admitAt cfg st t t
    let rs := admitSeq cfg r.2 ts
    (r.1 :: rs.1, rs.2)

/-- Number of retained timestamps inside the short (one-minute) window at
time `now`, after the hour pruning — the `requestsInLastMinute` quantity of
the source. -/
def minuteCount (st : RateLimitState) (now : Int) : Nat :=
  ((st.requestTimestamps.filter (fun ts => decide (ts > now - 60 * 60 * 1000))).filter
    (fun ts => decide (ts > now - 60 * 1000))).length

/-- Number of retained timestamps inside the long (one-hour) window at time
`now` — the `requestsInLastHour` quantity of the source. -/
def hourCount (st : RateLimitState) (now : Int) : Nat :=
  (st.requestTimestamps.filter (fun ts => decide (ts > now - 60 * 60 * 1000))).length

/-- Rate-limiter states reachable from the fresh service under a monotone
clock: the constructor trace mirrors the only mutations the source
performs — an admission round of a generate operation (`checkRateLimit`
then, on admission, `recordRequest`) and a `getRateLimitStatus` call. -/
inductive Reach (cfg : RateLimitConfig) : RateLimitState → Int → Prop where
  | init (t : Int) : Reach cfg ⟨[]⟩ t
  | admitStep {st : RateLimitState} {clock t1 t2 : Int} :
      Reach cfg st clock → clock ≤ t1 → t1 ≤ t2 →
      Reach cfg (admitAt cfg st t1 t2).2 t2
  | statusStep {st : RateLimitState} {clock t : Int} :
      Reach cfg st clock → clock ≤ t →
      Reach cfg (getRateLimitStatus cfg st t).2 t

/-! ## Fallback captions and provider-output normalization -/

/-- The fixed fallback caption sets (`demoSets` in `getDemoCaptions`). -/
def demoSets : List (List String) :=
  [ ["✨ Beautiful moments captured in time", "🌸 Embracing the beauty of nature",
     "🌟 Every picture tells a story"],
    ["📸 Capturing life's precious moments", "💫 Making memories one shot at a time",
     "🎨 Art in everyday moments"],
    ["🌈 Colors of life in every frame", "✨ Shining bright in the moment",
     "💖 Moments that make life beautiful"],
    ["🎯 Focused on what matters most", "🌺 Blooming where I'm planted",
     "⭐ Creating my own sunshine"],
    ["📷 Picture perfect moments", "🎭 Life is a beautiful adventure",
     "🌻 Finding joy in the little things"] ]

/-- `getDemoCaptions`: return one of the fixed sets.  The source picks
`demoSets[Math.floor(Math.random() * demoSets.length)]`; the random draw is
embedded as an index reduced into range. -/
def getDemoCaptions (idx : Nat) : List String :=
  demoSets.getD (idx % demoSets.length) []

/-- The filler caption pushed while fewer than 3 captions remain. -/
def fillerCaption : String := "Capturing moments that matter ✨"

/-- The non-empty trimmed lines of raw provider text: split on line breaks,
trim each line, discard empty lines. -/
def nonEmptyTrimmedLines (content : String) : List String :=
  ((jsSplit content '\n').map jsTrim).filter (fun c => decide (c.length > 0))

/-- Normalization of raw provider text as performed inline by both generate
operations: keep at most the first 3 non-empty trimmed lines, then push the
filler caption until exactly 3 captions remain. -/
def normalizeCaptions (content : String) : List String :=
  let captions := (nonEmptyTrimmedLines content).take 3
  captions ++ List.replicate (3 - captions.length) fillerCaption

/-! ## The multi-caption service (conversational vision provider)

`generateCaptions` / `generateCaptionsFromBuffer` are embedded as functions
of an environment fixing configuration, rate-limiter state, the clock, the
filesystem, the provider behaviour for this call, and the random draw of
the fallback selector. -/

/-- Response shape of the multi-caption operations (`CaptionResponse`). -/
structure CaptionResponse where
  success : Bool
  captions : Option (List String)
  error : Option String
deriving Repr, DecidableEq

/-- Failure taxonomy of a provider call (classification of the thrown
error: `OpenAI.APIError` statuses, network failures, and everything else). -/
inductive ErrClass where
  | unauthenticated
  | quotaExceeded
  | badInput
  | unreachable
  | unclassified
deriving Repr, DecidableEq

/-- Outcome of the provider call: either the (possibly absent or empty)
text content of the first choice, or a thrown error of some class. -/
inductive ProviderOutcome where
  | ok (content : Option String)
  | fail (cls : ErrClass)
deriving Repr, DecidableEq

/-- `!content` in the source: the content is missing, null, or empty. -/
def contentBlank : Option String → Bool
  | none => true
  | some c => c = ""

/-- Environment of one multi-caption service call. -/
structure OpenAIEnv where
  /-- API key present: `isEnabled` and the `openai` client are set. -/
  isEnabled : Bool
  cfg : RateLimitConfig
  st : RateLimitState
  /-- `Date.now()` during this call. -/
  now : Int
  /-- `fs.existsSync`. -/
  fileExists : String → Bool
  /-- What the provider call would produce, were it reached. -/
  outcome : ProviderOutcome
  /-- Random draw of `getDemoCaptions`. -/
  demoIdx : Nat

/-- Result of a generate operation: the response, the rate-limiter state
left behind, and whether the external provider was actually invoked. -/
structure GenOutcome where
  resp : CaptionResponse
  st : RateLimitState
  providerCalled : Bool
deriving Repr

/-- Demo-caption success response. -/
def demoResponse (env : OpenAIEnv) : CaptionResponse :=
  ⟨true, some (getDemoCaptions env.demoIdx), none⟩

/-- `generateCaptions` (path-based): disabled service and local rate
limiting degrade to demo captions; a missing image file is an explicit
error; after recording the request, every provider failure and blank
content degrade to demo captions; otherwise the provider text is
normalized into exactly 3 captions. -/
def generateCaptions (env : OpenAIEnv) (imagePath : String) : GenOutcome :=
  if !env.isEnabled then
    ⟨demoResponse env, env.st, false⟩
  else
    match checkRateLimit env.cfg env.st env.now with
    | (false, st') => ⟨demoResponse env, st', false⟩
    | (true, st') =>
      if !env.fileExists imagePath then
        ⟨⟨false, none, some "Image file not found"⟩, st', false⟩
      else
        let st'' := recordRequest st' env.now
        match env.outcome with
        | .fail _ => ⟨demoResponse env, st'', true⟩
        | .ok content =>
          if contentBlank content then ⟨demoResponse env, st'', true⟩
          else
            ⟨⟨true, some (normalizeCaptions (content.getD "")), none⟩, st'', true⟩

/-- `generateCaptionsFromBuffer`: as `generateCaptions` but the image is an
in-memory buffer, so there is no existence check and no error branch. -/
def generateCaptionsFromBuffer (env : OpenAIEnv) (_buffer : List UInt8)
    (_mimeType : String) : GenOutcome :=
  if !env.isEnabled then
    ⟨demoResponse env, env.st, false⟩
  else
    match checkRateLimit env.cfg env.st env.now with
    | (false, st') => ⟨demoResponse env, st', false⟩
    | (true, st') =>
      let st'' := recordRequest st' env.now
      match env.outcome with
      | .fail _ => ⟨demoResponse env, st'', true⟩
      | .ok content =>
        if contentBlank content then ⟨demoResponse env, st'', true⟩
        else
          ⟨⟨true, some (normalizeCaptions (content.getD "")), none⟩, st'', true⟩

/-! ## Path resolution and the single-caption service

`path.resolve` (posix) is embedded as segment normalization against a
current working directory; `isValidPath` and `generateCaption` follow the
dedicated-captioning `CaptionService`. -/

/-- Process the segments of an absolute path left to right: empty and `.`
segments vanish, `..` pops (a no-op at the root), anything else is pushed. -/
def resolveSegs (segs : List String) : List String :=
  segs.foldl
    (fun acc s =>
      if s = "" || s = "." then acc
      else if s = ".." then acc.dropLast
      else acc ++ [s])
    []

/-- `path.resolve(p)` against an absolute working directory `cwd`: an
absolute `p` is normalized on its own, a relative one below `cwd`. -/
def resolvePath (cwd p : String) : String :=
  let full := if jsStartsWith p "/" then p else cwd ++ "/" ++ p
  "/" ++ String.intercalate "/" (resolveSegs (jsSplit full '/'))

/-- `UPLOAD_DIR = path.resolve('uploads')`. -/
def uploadDir (cwd : String) : String :=
  resolvePath cwd "uploads"

/-- `isValidPath`: resolve the candidate and test that the resolved string
starts with the upload directory string. -/
def isValidPath (cwd filePath : String) : Bool :=
  jsStartsWith (resolvePath cwd filePath) (uploadDir cwd)

/-- The canonical form `q` designates the root itself or a path below it. -/
def isWithinRoot (root q : String) : Bool :=
  q = root || jsStartsWith q (root ++ "/")

/-- Outcome of the dedicated captioning endpoint (`hf.imageToText`):
either the `generated_text` field or a thrown error. -/
inductive HfOutcome where
  | ok (generatedText : String)
  | fail
deriving Repr, DecidableEq

/-- Environment of one single-caption service call. -/
structure HfEnv where
  /-- The process working directory fixing `UPLOAD_DIR`. -/
  cwd : String
  /-- `fs.existsSync`. -/
  fileExists : String → Bool
  /-- What the provider call would produce, were it reached. -/
  outcome : HfOutcome

/-- `generateCaption` (single-caption service): invalid paths, missing
files and provider errors all surface as the caught-and-rethrown error
`Failed to generate caption`; empty provider text is replaced by the fixed
no-content placeholder via `result.generated_text || '...'`. -/
def generateCaption (env : HfEnv) (imagePath : String) : Except String String :=
  if !isValidPath env.cwd imagePath then .error "Failed to generate caption"
  else if !env.fileExists imagePath then .error "Failed to generate caption"
  else
    match env.outcome with
    | .fail => .error "Failed to generate caption"
    | .ok generatedText =>
      .ok (if generatedText = "" then "Unable to generate caption" else generatedText)

/-! ## Helper lemmas: trimming -/

theorem trimChars_eq_rdropWhile (l : List Char) :
    trimChars l = List.rdropWhile jsWhitespace (l.dropWhile jsWhitespace) := rfl

theorem dropWhile_rdropWhile_fixed {p : Char → Bool} {m : List Char}
    (h : m.dropWhile p = m) :
    (List.rdropWhile p m).dropWhile p = List.rdropWhile p m := by
  rcases hr : List.rdropWhile p m with _ | ⟨a, u⟩
  · simp
  · have hpre : a :: u <+: m := by
      rw [← hr]; exact List.rdropWhile_prefix p m
    obtain ⟨t, ht⟩ := hpre
    have hpa : p a = false := by
      by_contra hpa
      have hpa' : p a = true := by
        cases hpab : p a
        · exact absurd hpab hpa
        · rfl
      rw [← ht, List.cons_append, List.dropWhile_cons_of_pos hpa'] at h
      have hlen : ((u ++ t).dropWhile p).length = (u ++ t).length + 1 := by
        rw [h]; simp
      have hle : ((u ++ t).dropWhile p).length ≤ (u ++ t).length :=
        (List.dropWhile_sublist p).length_le
      omega
    exact List.dropWhile_cons_of_neg (by simp [hpa])

theorem trimChars_idem (l : List Char) : trimChars (trimChars l) = trimChars l := by
  rw [trimChars_eq_rdropWhile, trimChars_eq_rdropWhile,
    dropWhile_rdropWhile_fixed (List.dropWhile_idempotent jsWhitespace l),
    List.rdropWhile_idempotent]

theorem jsTrim_idem (s : String) : jsTrim (jsTrim s) = jsTrim s :=
  congrArg String.mk (trimChars_idem s.data)

theorem jsTrim_ne_empty_of_length_pos {c : String} (hlen : 0 < c.length)
    (htrim : jsTrim c = c) : jsTrim c ≠ "" := by
  intro h
  rw [htrim] at h
  subst h
  simp [String.length] at hlen

/-! ## Helper lemmas: fallback sets and normalization -/

theorem getDemoCaptions_mem (idx : Nat) : getDemoCaptions idx ∈ demoSets := by
  have h : idx % demoSets.length < demoSets.length := Nat.mod_lt _ (by decide)
  rw [getDemoCaptions, List.getD_eq_getElem _ _ h]
  exact List.getElem_mem h

theorem demoSets_wellFormed :
    ∀ s ∈ demoSets, s.length = 3 ∧ ∀ c ∈ s, jsTrim c ≠ "" := by decide

theorem nonEmptyTrimmedLines_sound {content : String} {c : String}
    (h : c ∈ nonEmptyTrimmedLines content) : jsTrim c ≠ "" := by
  rw [nonEmptyTrimmedLines, List.mem_filter] at h
  obtain ⟨hmem, hpos⟩ := h
  obtain ⟨line, _, hline⟩ := List.mem_map.mp hmem
  have hidem : jsTrim c = c := by rw [← hline, jsTrim_idem]
  exact jsTrim_ne_empty_of_length_pos (of_decide_eq_true hpos) hidem

theorem normalizeCaptions_sound (content : String) :
    (normalizeCaptions content).length = 3 ∧
      ∀ c ∈ normalizeCaptions content, jsTrim c ≠ "" := by
  constructor
  · rw [normalizeCaptions]
    have h : ((nonEmptyTrimmedLines content).take 3).length ≤ 3 := by
      rw [List.length_take]; omega
    simp only [List.length_append, List.length_replicate]
    omega
  · intro c hc
    rw [normalizeCaptions, List.mem_append] at hc
    rcases hc with hc | hc
    · exact nonEmptyTrimmedLines_sound (List.mem_of_mem_take hc)
    · rw [List.eq_of_mem_replicate hc]
      decide

theorem getDemoCaptions_wellFormed (idx : Nat) :
    (getDemoCaptions idx).length = 3 ∧ ∀ c ∈ getDemoCaptions idx, jsTrim c ≠ "" :=
  demoSets_wellFormed _ (getDemoCaptions_mem idx)

/-! ## Claim theorems -/

/-- Claim C8: normalization splits raw provider text on line breaks, trims each
line, discards empty lines and keeps at most the first 3; when fewer than 3
non-empty lines remain, the result is padded with the fixed filler caption
to exactly length 3, with the original trimmed lines preserved in order as
a prefix; the result never exceeds 3 captions. -/
theorem claim_C8_normalize_padding (content : String) :
    ((nonEmptyTrimmedLines content).length < 3 →
      normalizeCaptions content =
        nonEmptyTrimmedLines content ++
          List.replicate (3 - (nonEmptyTrimmedLines content).length) fillerCaption ∧
      nonEmptyTrimmedLines content <+: normalizeCaptions content ∧
      (normalizeCaptions content).length = 3) ∧
    (normalizeCaptions content).length ≤ 3 := by
  have hlen3 := (normalizeCaptions_sound content).1
  constructor
  · intro h
    have htake : (nonEmptyTrimmedLines content).take 3 = nonEmptyTrimmedLines content :=
      List.take_of_length_le (by omega)
    refine ⟨?_, ?_, hlen3⟩
    · simp only [normalizeCaptions, htake]
    · simp only [normalizeCaptions, htake]
      exact List.prefix_append _ _
  · omega

/-- Claim C8 witness: `"Only one caption"` has a single non-empty line and is
padded with two fillers. -/
theorem claim_C8_witness :
    (nonEmptyTrimmedLines "Only one caption").length < 3 ∧
    normalizeCaptions "Only one caption" =
      nonEmptyTrimmedLines "Only one caption" ++
        List.replicate (3 - (nonEmptyTrimmedLines "Only one caption").length)
          fillerCaption :=
  ⟨by decide, ((claim_C8_normalize_padding "Only one caption").1 (by decide)).1⟩

/-- Claim C3: on the multi-caption path, every successful result — whether
normalized provider output or a fallback set — carries exactly 3 captions,
each non-empty after trimming. -/
theorem claim_C3_success_exactly_three (env : OpenAIEnv) (p : String)
    (buf : List UInt8) (mime : String) :
    (∀ cs, (generateCaptions env p).resp.success = true →
      (generateCaptions env p).resp.captions = some cs →
      cs.length = 3 ∧ ∀ c ∈ cs, jsTrim c ≠ "") ∧
    (∀ cs, (generateCaptionsFromBuffer env buf mime).resp.success = true →
      (generateCaptionsFromBuffer env buf mime).resp.captions = some cs →
      cs.length = 3 ∧ ∀ c ∈ cs, jsTrim c ≠ "") := by
  constructor
  · intro cs _ hcap
    unfold generateCaptions at hcap
    repeat' split at hcap
    all_goals simp [demoResponse] at hcap
    all_goals first
      | (rw [← hcap]; exact getDemoCaptions_wellFormed env.demoIdx)
      | (rw [← hcap]; exact normalizeCaptions_sound _)
  · intro cs _ hcap
    unfold generateCaptionsFromBuffer at hcap
    repeat' split at hcap
    all_goals simp [demoResponse] at hcap
    all_goals first
      | (rw [← hcap]; exact getDemoCaptions_wellFormed env.demoIdx)
      | (rw [← hcap]; exact normalizeCaptions_sound _)

/-- Claim C3 witness: a successful provider response with three lines. -/
theorem claim_C3_witness :
    (generateCaptions
        ⟨true, ⟨10, 100⟩, ⟨[]⟩, 0, fun _ => true,
          .ok (some "One\nTwo\nThree"), 0⟩ "img.jpg").resp.captions =
      some ["One", "Two", "Three"] ∧
    (["One", "Two", "Three"] : List String).length = 3 ∧
    ∀ c ∈ (["One", "Two", "Three"] : List String), jsTrim c ≠ "" := by
  refine ⟨by decide, ?_⟩
  exact (claim_C3_success_exactly_three
    ⟨true, ⟨10, 100⟩, ⟨[]⟩, 0, fun _ => true, .ok (some "One\nTwo\nThree"), 0⟩
    "img.jpg" [] "image/jpeg").1 ["One", "Two", "Three"] (by decide) (by decide)

/-- Claim C5: with the service configured and the local rate limit not exceeded,
a path-based request for a missing image file yields an explicit error
result, not fallback captions. -/
theorem claim_C5_missing_file_error (env : OpenAIEnv) (p : String)
    (henb : env.isEnabled = true)
    (hrl : (checkRateLimit env.cfg env.st env.now).1 = true)
    (hex : env.fileExists p = false) :
    (generateCaptions env p).resp =
      ⟨false, none, some "Image file not found"⟩ ∧
    (generateCaptions env p).providerCalled = false := by
  rcases hc : checkRateLimit env.cfg env.st env.now with ⟨b, st'⟩
  rw [hc] at hrl
  simp at hrl
  subst hrl
  constructor <;> simp [generateCaptions, henb, hc, hex]

/-- Claim C5 witness. -/
theorem claim_C5_witness :
    (generateCaptions ⟨true, ⟨10, 100⟩, ⟨[]⟩, 0, fun _ => false, .ok none, 0⟩
        "missing.jpg").resp =
      ⟨false, none, some "Image file not found"⟩ :=
  (claim_C5_missing_file_error
    ⟨true, ⟨10, 100⟩, ⟨[]⟩, 0, fun _ => false, .ok none, 0⟩ "missing.jpg"
    rfl (by decide) rfl).1

/-- Claim C6: with no provider API key configured, both generate operations
return a successful result equal to one of the fixed fallback caption sets
and never invoke the external provider. -/
theorem claim_C6_unconfigured_fallback (env : OpenAIEnv) (p : String)
    (buf : List UInt8) (mime : String) (h : env.isEnabled = false) :
    ((generateCaptions env p).resp.success = true ∧
     (∃ s ∈ demoSets, (generateCaptions env p).resp.captions = some s) ∧
     (generateCaptions env p).providerCalled = false ∧
     (generateCaptions env p).st = env.st) ∧
    ((generateCaptionsFromBuffer env buf mime).resp.success = true ∧
     (∃ s ∈ demoSets, (generateCaptionsFromBuffer env buf mime).resp.captions = some s) ∧
     (generateCaptionsFromBuffer env buf mime).providerCalled = false ∧
     (generateCaptionsFromBuffer env buf mime).st = env.st) := by
  constructor <;>
    refine ⟨?_, ⟨getDemoCaptions env.demoIdx, getDemoCaptions_mem _, ?_⟩, ?_, ?_⟩ <;>
    simp [generateCaptions, generateCaptionsFromBuffer, demoResponse, h]

/-- Claim C6 witness. -/
theorem claim_C6_witness :
    (generateCaptions ⟨false, ⟨10, 100⟩, ⟨[]⟩, 0, fun _ => true, .ok (some "text"), 2⟩
        "img.jpg").providerCalled = false ∧
    ∃ s ∈ demoSets,
      (generateCaptions ⟨false, ⟨10, 100⟩, ⟨[]⟩, 0, fun _ => true, .ok (some "text"), 2⟩
          "img.jpg").resp.captions = some s := by
  have h := (claim_C6_unconfigured_fallback
    ⟨false, ⟨10, 100⟩, ⟨[]⟩, 0, fun _ => true, .ok (some "text"), 2⟩
    "img.jpg" [] "image/jpeg" rfl).1
  exact ⟨h.2.2.1, h.2.1⟩

/-- Claim C7: when the dedicated captioning endpoint returns empty text, the
single-caption operation substitutes the fixed no-content placeholder and
never hands the empty provider text back as the caption. -/
theorem claim_C7_empty_text_no_content (env : HfEnv) (p : String)
    (hv : isValidPath env.cwd p = true) (hex : env.fileExists p = true)
    (ho : env.outcome = .ok "") :
    generateCaption env p = .ok "Unable to generate caption" ∧
    generateCaption env p ≠ .ok "" := by
  have h : generateCaption env p = .ok "Unable to generate caption" := by
    simp [generateCaption, hv, hex, ho]
  exact ⟨h, by rw [h]; simp⟩

/-- Claim C7 witness. -/
theorem claim_C7_witness :
    generateCaption ⟨"/app", fun _ => true, .ok ""⟩ "/app/uploads/photo.jpg" =
      .ok "Unable to generate caption" :=
  (claim_C7_empty_text_no_content ⟨"/app", fun _ => true, .ok ""⟩
    "/app/uploads/photo.jpg" (by decide) rfl rfl).1

/-- Claim C9: the buffer-based operation never returns an error result — every
failure mode is absorbed into fallback captions — while the path-based
variant does have failing inputs. -/
theorem claim_C9_buffer_never_fails :
    (∀ (env : OpenAIEnv) (buf : List UInt8) (mime : String),
      (generateCaptionsFromBuffer env buf mime).resp.success = true ∧
      (generateCaptionsFromBuffer env buf mime).resp.error = none ∧
      ∃ cs, (generateCaptionsFromBuffer env buf mime).resp.captions = some cs) ∧
    ∃ (env : OpenAIEnv) (p : String),
      (generateCaptions env p).resp.success = false := by
  constructor
  · intro env buf mime
    unfold generateCaptionsFromBuffer
    repeat' split
    all_goals simp [demoResponse]
  · exact ⟨⟨true, ⟨10, 100⟩, ⟨[]⟩, 0, fun _ => false, .ok none, 0⟩, "p.jpg", by decide⟩

/-- Claim C1: every provider-call failure (any taxonomy class) and every blank
provider response is absorbed by the multi-caption operations into a
successful result whose captions are one of the fixed fallback sets; no
error is surfaced. -/
theorem claim_C1_provider_failure_fallback (env : OpenAIEnv) (p : String)
    (buf : List UInt8) (mime : String)
    (hout : env.outcome = .ok none ∨ env.outcome = .ok (some "") ∨
      ∃ cls, env.outcome = .fail cls) :
    ((generateCaptions env p).providerCalled = true →
      (generateCaptions env p).resp.success = true ∧
      (generateCaptions env p).resp.error = none ∧
      ∃ s ∈ demoSets, (generateCaptions env p).resp.captions = some s) ∧
    ((generateCaptionsFromBuffer env buf mime).providerCalled = true →
      (generateCaptionsFromBuffer env buf mime).resp.success = true ∧
      (generateCaptionsFromBuffer env buf mime).resp.error = none ∧
      ∃ s ∈ demoSets,
        (generateCaptionsFromBuffer env buf mime).resp.captions = some s) := by
  have hdemo : ∀ r : GenOutcome, r.resp = demoResponse env →
      r.resp.success = true ∧ r.resp.error = none ∧
      ∃ s ∈ demoSets, r.resp.captions = some s := by
    intro r hr
    rw [hr]
    exact ⟨rfl, rfl, getDemoCaptions env.demoIdx, getDemoCaptions_mem _, rfl⟩
  constructor
  · intro hpc
    cases he : env.isEnabled
    · simp [generateCaptions, he] at hpc
    · rcases hc : checkRateLimit env.cfg env.st env.now with ⟨b, st'⟩
      cases b
      · simp [generateCaptions, he, hc] at hpc
      · cases hf : env.fileExists p
        · simp [generateCaptions, he, hc, hf] at hpc
        · apply hdemo
          rcases hout with ho | ho | ⟨cls, ho⟩ <;>
            simp [generateCaptions, he, hc, hf, ho, contentBlank]
  · intro hpc
    cases he : env.isEnabled
    · simp [generateCaptionsFromBuffer, he] at hpc
    · rcases hc : checkRateLimit env.cfg env.st env.now with ⟨b, st'⟩
      cases b
      · simp [generateCaptionsFromBuffer, he, hc] at hpc
      · apply hdemo
        rcases hout with ho | ho | ⟨cls, ho⟩ <;>
          simp [generateCaptionsFromBuffer, he, hc, ho, contentBlank]

/-- Claim C1 witness: a quota-exceeded provider failure still produces a
successful fallback response. -/
theorem claim_C1_witness :
    (generateCaptions
        ⟨true, ⟨10, 100⟩, ⟨[]⟩, 0, fun _ => true, .fail .quotaExceeded, 0⟩
        "img.jpg").resp.success = true ∧
    ∃ s ∈ demoSets,
      (generateCaptions
          ⟨true, ⟨10, 100⟩, ⟨[]⟩, 0, fun _ => true, .fail .quotaExceeded, 0⟩
          "img.jpg").resp.captions = some s := by
  have h := (claim_C1_provider_failure_fallback
    ⟨true, ⟨10, 100⟩, ⟨[]⟩, 0, fun _ => true, .fail .quotaExceeded, 0⟩
    "img.jpg" [] "image/jpeg" (Or.inr (Or.inr ⟨.quotaExceeded, rfl⟩))).1 (by decide)
  exact ⟨h.1, h.2.2⟩

/-- Claim C2 counterexample: a sibling directory whose name extends the uploads
root string is accepted by `isValidPath` although its canonical form lies
outside the root. -/
theorem claim_C2_counterexample :
    isValidPath "/srv/app" "/srv/app/uploadsx/evil.jpg" = true ∧
    isWithinRoot (uploadDir "/srv/app")
      (resolvePath "/srv/app" "/srv/app/uploadsx/evil.jpg") = false := by decide

theorem isWithinRoot_jsStartsWith {root q : String}
    (h : isWithinRoot root q = true) : jsStartsWith q root = true := by
  rw [isWithinRoot, Bool.or_eq_true] at h
  rcases h with h | h
  · have hq : q = root := by simpa using h
    subst hq
    exact decide_eq_true (List.prefix_refl q.data)
  · have hpre : (root ++ "/").data <+: q.data := of_decide_eq_true h
    have hroot : root.data <+: (root ++ "/").data := by
      rw [String.data_append]
      exact List.prefix_append _ _
    exact decide_eq_true (hroot.trans hpre)

/-- Claim C2 amended: `isValidPath` rejects every path whose canonical form does
not extend the canonical uploads root as a string prefix — in particular
the `..`-traversal scenario — and accepts in-root references; such
rejected paths are indeed outside the root (the converse fails: see the
counterexample, a sibling path extending the root string is accepted). -/
theorem claim_C2_amended :
    (∀ cwd p : String,
      jsStartsWith (resolvePath cwd p) (uploadDir cwd) = false →
      isValidPath cwd p = false ∧
      isWithinRoot (uploadDir cwd) (resolvePath cwd p) = false) ∧
    isValidPath "/data" "/data/uploads/../../etc/passwd" = false ∧
    isValidPath "/data" "/data/uploads/img123.jpg" = true := by
  refine ⟨fun cwd p h => ⟨?_, ?_⟩, by decide, by decide⟩
  · rw [isValidPath]; exact h
  · by_contra hw
    rw [Bool.not_eq_false] at hw
    rw [isWithinRoot_jsStartsWith hw] at h
    cases h

/-- Claim C2 witness: the traversal scenario is rejected and lies outside the
root. -/
theorem claim_C2_witness :
    isValidPath "/data" "/data/uploads/../../etc/passwd" = false ∧
    isWithinRoot (uploadDir "/data")
      (resolvePath "/data" "/data/uploads/../../etc/passwd") = false :=
  claim_C2_amended.1 "/data" "/data/uploads/../../etc/passwd" (by decide)

/-! ## Helper lemmas: rate limiter -/

theorem length_filter_mono {α : Type _} {p q : α → Bool} :
    ∀ {l : List α}, (∀ x ∈ l, q x = true → p x = true) →
      (l.filter q).length ≤ (l.filter p).length := by
  intro l
  induction l with
  | nil => intro _; simp
  | cons a t ih =>
    intro h
    have ht := ih fun x hx => h x (List.mem_cons_of_mem _ hx)
    rcases hq : q a with _ | _
    · rw [List.filter_cons_of_neg (by simp [hq])]
      rcases hp : p a with _ | _
      · rw [List.filter_cons_of_neg (by simp [hp])]; exact ht
      · rw [List.filter_cons_of_pos hp]
        exact le_trans ht (Nat.le_succ _)
    · have hp := h a (List.mem_cons_self a t) hq
      rw [List.filter_cons_of_pos hq, List.filter_cons_of_pos hp]
      simpa using ht

theorem minuteCount_mono {st : RateLimitState} {t t' : Int} (h : t ≤ t') :
    minuteCount st t' ≤ minuteCount st t := by
  rw [minuteCount, minuteCount, List.filter_filter, List.filter_filter]
  apply length_filter_mono
  intro x _ hq
  rw [Bool.and_eq_true, decide_eq_true_eq, decide_eq_true_eq] at hq ⊢
  omega

theorem hourCount_mono {st : RateLimitState} {t t' : Int} (h : t ≤ t') :
    hourCount st t' ≤ hourCount st t := by
  rw [hourCount, hourCount]
  apply length_filter_mono
  intro x _ hq
  rw [decide_eq_true_eq] at hq ⊢
  omega

theorem minuteCount_filter_le (l : List Int) (q : Int → Bool) (t : Int) :
    minuteCount ⟨l.filter q⟩ t ≤ minuteCount ⟨l⟩ t := by
  rw [minuteCount, minuteCount]
  simp only [List.filter_filter]
  apply length_filter_mono
  intro x _ hq
  simp only [Bool.and_eq_true] at hq ⊢
  exact ⟨hq.1, hq.2.1⟩

theorem hourCount_filter_le (l : List Int) (q : Int → Bool) (t : Int) :
    hourCount ⟨l.filter q⟩ t ≤ hourCount ⟨l⟩ t := by
  rw [hourCount, hourCount]
  simp only [List.filter_filter]
  apply length_filter_mono
  intro x _ hq
  simp only [Bool.and_eq_true] at hq ⊢
  exact hq.1

theorem minuteCount_append_le (l : List Int) (x t : Int) :
    minuteCount ⟨l ++ [x]⟩ t ≤ minuteCount ⟨l⟩ t + 1 := by
  rw [minuteCount, minuteCount]
  simp only [List.filter_append, List.length_append]
  have h : (List.filter (fun ts => decide (ts > t - 60 * 1000))
      (List.filter (fun ts => decide (ts > t - 60 * 60 * 1000)) [x])).length ≤ 1 := by
    have h1 := List.length_filter_le (fun ts => decide (ts > t - 60 * 1000))
      (List.filter (fun ts => decide (ts > t - 60 * 60 * 1000)) [x])
    have h2 := List.length_filter_le (fun ts => decide (ts > t - 60 * 60 * 1000)) [x]
    simp only [List.length_cons, List.length_nil] at h2
    omega
  omega

theorem hourCount_append_le (l : List Int) (x t : Int) :
    hourCount ⟨l ++ [x]⟩ t ≤ hourCount ⟨l⟩ t + 1 := by
  rw [hourCount, hourCount]
  simp only [List.filter_append, List.length_append]
  have h2 := List.length_filter_le (fun ts => decide (ts > t - 60 * 60 * 1000)) [x]
  simp only [List.length_cons, List.length_nil] at h2
  omega

theorem checkRateLimit_snd (cfg : RateLimitConfig) (st : RateLimitState) (now : Int) :
    (checkRateLimit cfg st now).2 =
      ⟨st.requestTimestamps.filter (fun ts => decide (ts > now - 60 * 60 * 1000))⟩ := by
  rw [checkRateLimit]
  repeat' split
  all_goals rfl

theorem checkRateLimit_fst_true {cfg : RateLimitConfig} {st : RateLimitState}
    {now : Int} (h : (checkRateLimit cfg st now).1 = true) :
    minuteCount st now < cfg.maxRequestsPerMinute ∧
      hourCount st now < cfg.maxRequestsPerHour := by
  rw [checkRateLimit] at h
  split at h
  · cases h
  · split at h
    · cases h
    · rename_i h1 h2
      rw [not_le] at h1 h2
      exact ⟨h1, h2⟩

theorem getRateLimitStatus_snd (cfg : RateLimitConfig) (st : RateLimitState)
    (now : Int) :
    (getRateLimitStatus cfg st now).2 =
      ⟨st.requestTimestamps.filter (fun ts => decide (ts > now - 60 * 60 * 1000))⟩ :=
  rfl

theorem reach_counts_le {cfg : RateLimitConfig} {st : RateLimitState} {clock : Int}
    (h : Reach cfg st clock) :
    ∀ t, clock ≤ t → minuteCount st t ≤ cfg.maxRequestsPerMinute ∧
      hourCount st t ≤ cfg.maxRequestsPerHour := by
  induction h with
  | init t0 =>
    intro t _
    simp [minuteCount, hourCount]
  | @admitStep st0 clock0 t1 t2 _ h1 h2 ih =>
    intro t ht
    rcases hc : checkRateLimit cfg st0 t1 with ⟨b, st'⟩
    have hsnd : st' =
        ⟨st0.requestTimestamps.filter (fun ts => decide (ts > t1 - 60 * 60 * 1000))⟩ := by
      have := checkRateLimit_snd cfg st0 t1
      rw [hc] at this
      exact this
    have hmono : minuteCount st' t ≤ minuteCount st0 t ∧
        hourCount st' t ≤ hourCount st0 t := by
      rw [hsnd]
      obtain ⟨l⟩ := st0
      exact ⟨minuteCount_filter_le _ _ _, hourCount_filter_le _ _ _⟩
    have hih := ih t (le_trans h1 (le_trans h2 ht))
    cases b
    · have hstate : (admitAt cfg st0 t1 t2).2 = st' := by
        rw [admitAt, hc]
      rw [hstate]
      exact ⟨le_trans hmono.1 hih.1, le_trans hmono.2 hih.2⟩
    · have hstate : (admitAt cfg st0 t1 t2).2 = ⟨st'.requestTimestamps ++ [t2]⟩ := by
        rw [admitAt, hc]
        rfl
      have hlt := checkRateLimit_fst_true (by rw [hc] : (checkRateLimit cfg st0 t1).1 = true)
      have hmono1 : minuteCount st' t1 ≤ minuteCount st0 t1 := by
        rw [hsnd]
        obtain ⟨l⟩ := st0
        exact minuteCount_filter_le _ _ _
      have hmono2 : hourCount st' t1 ≤ hourCount st0 t1 := by
        rw [hsnd]
        obtain ⟨l⟩ := st0
        exact hourCount_filter_le _ _ _
      have htime : t1 ≤ t := le_trans h2 ht
      have hmono_t : minuteCount st' t ≤ minuteCount st' t1 := minuteCount_mono htime
      have hmono_h : hourCount st' t ≤ hourCount st' t1 := hourCount_mono htime
      have hm := le_trans hmono_t hmono1
      have hh := le_trans hmono_h hmono2
      rw [hstate]
      have ham := minuteCount_append_le st'.requestTimestamps t2 t
      have hah := hourCount_append_le st'.requestTimestamps t2 t
      have hst' : (⟨st'.requestTimestamps⟩ : RateLimitState) = st' := rfl
      rw [hst'] at ham hah
      exact ⟨by omega, by omega⟩
  | @statusStep st0 clock0 t0 _ h1 ih =>
    intro t ht
    rw [getRateLimitStatus_snd]
    have hih := ih t (le_trans h1 ht)
    obtain ⟨l⟩ := st0
    exact ⟨le_trans (minuteCount_filter_le _ _ _) hih.1,
      le_trans (hourCount_filter_le _ _ _) hih.2⟩

/-- Claim C10: in every reachable limiter state, the pruned window counts
reported by `getRateLimitStatus` respect the configured maxima — a
timestamp is only ever appended after an admission check has passed. -/
theorem claim_C10_status_bounded {cfg : RateLimitConfig} {st : RateLimitState}
    {clock : Int} (h : Reach cfg st clock) {now : Int} (hnow : clock ≤ now) :
    (getRateLimitStatus cfg st now).1.requestsInLastMinute ≤
      cfg.maxRequestsPerMinute ∧
    (getRateLimitStatus cfg st now).1.requestsInLastHour ≤
      cfg.maxRequestsPerHour := by
  have hcounts := reach_counts_le h now hnow
  exact ⟨hcounts.1, hcounts.2⟩

/-- Claim C10 witness: a state reached by one admission round still reports
counts within the caps. -/
theorem claim_C10_witness :
    (getRateLimitStatus ⟨2, 100⟩ (admitAt ⟨2, 100⟩ ⟨[]⟩ 0 0).2
        1000).1.requestsInLastMinute ≤ 2 ∧
    (getRateLimitStatus ⟨2, 100⟩ (admitAt ⟨2, 100⟩ ⟨[]⟩ 0 0).2
        1000).1.requestsInLastHour ≤ 100 :=
  claim_C10_status_bounded
    (Reach.admitStep (Reach.init 0) (le_refl 0) (le_refl 0)) (by omega)

theorem checkRateLimit_window_accept {cfg : RateLimitConfig} {st : RateLimitState}
    {t : Int} (hwin : ∀ s ∈ st.requestTimestamps, t - 60 * 1000 < s)
    (hm : st.requestTimestamps.length < cfg.maxRequestsPerMinute)
    (hh : st.requestTimestamps.length < cfg.maxRequestsPerHour) :
    checkRateLimit cfg st t = (true, st) := by
  have hhour : st.requestTimestamps.filter
      (fun ts => decide (ts > t - 60 * 60 * 1000)) = st.requestTimestamps :=
    List.filter_eq_self.mpr fun s hs => decide_eq_true (by have := hwin s hs; omega)
  have hmin : st.requestTimestamps.filter
      (fun ts => decide (ts > t - 60 * 1000)) = st.requestTimestamps :=
    List.filter_eq_self.mpr fun s hs => decide_eq_true (by have := hwin s hs; omega)
  rw [checkRateLimit]
  simp only [hhour, hmin]
  rw [if_neg (by omega), if_neg (by omega)]

theorem checkRateLimit_window_reject {cfg : RateLimitConfig} {st : RateLimitState}
    {t : Int} (hwin : ∀ s ∈ st.requestTimestamps, t - 60 * 1000 < s)
    (hm : cfg.maxRequestsPerMinute ≤ st.requestTimestamps.length) :
    checkRateLimit cfg st t = (false, st) := by
  have hhour : st.requestTimestamps.filter
      (fun ts => decide (ts > t - 60 * 60 * 1000)) = st.requestTimestamps :=
    List.filter_eq_self.mpr fun s hs => decide_eq_true (by have := hwin s hs; omega)
  have hmin : st.requestTimestamps.filter
      (fun ts => decide (ts > t - 60 * 1000)) = st.requestTimestamps :=
    List.filter_eq_self.mpr fun s hs => decide_eq_true (by have := hwin s hs; omega)
  rw [checkRateLimit]
  simp only [hhour, hmin]
  rw [if_pos (by omega)]

theorem admitSeq_run (cfg : RateLimitConfig) (T : Int)
    (hcap : cfg.maxRequestsPerMinute < cfg.maxRequestsPerHour) :
    ∀ (rest acc : List Int),
      acc.length + rest.length = cfg.maxRequestsPerMinute + 1 →
      acc.length ≤ cfg.maxRequestsPerMinute →
      (∀ t ∈ acc, T ≤ t ∧ t < T + 60 * 1000) →
      (∀ t ∈ rest, T ≤ t ∧ t < T + 60 * 1000) →
      admitSeq cfg ⟨acc⟩ rest =
        (List.replicate (cfg.maxRequestsPerMinute - acc.length) true ++ [false],
         ⟨acc ++ rest.take (cfg.maxRequestsPerMinute - acc.length)⟩) := by
  intro rest
  induction rest with
  | nil =>
    intro acc hlen hle _ _
    exfalso
    simp only [List.length_nil, Nat.add_zero] at hlen
    omega
  | cons t ts ih =>
    intro acc hlen hle hacc hrest
    simp only [List.length_cons] at hlen
    have hwt := hrest t (List.mem_cons_self t ts)
    have hrest' := fun x hx => hrest x (List.mem_cons_of_mem _ hx)
    have hwin : ∀ s ∈ acc, t - 60 * 1000 < s := by
      intro s hs
      have := hacc s hs
      omega
    rw [admitSeq]
    by_cases hfull : acc.length = cfg.maxRequestsPerMinute
    · have hts : ts = [] := List.eq_nil_of_length_eq_zero (by omega)
      subst hts
      have hchk : checkRateLimit cfg ⟨acc⟩ t = (false, ⟨acc⟩) :=
        checkRateLimit_window_reject hwin
          (by show cfg.maxRequestsPerMinute ≤ acc.length; omega)
      have hadm : admitAt cfg ⟨acc⟩ t t = (false, ⟨acc⟩) := by
        rw [admitAt, hchk]
      have hsub : cfg.maxRequestsPerMinute - acc.length = 0 := by omega
      simp only [hadm, admitSeq, hsub]
      simp
    · have hlt : acc.length < cfg.maxRequestsPerMinute := Nat.lt_of_le_of_ne hle hfull
      have hchk : checkRateLimit cfg ⟨acc⟩ t = (true, ⟨acc⟩) :=
        checkRateLimit_window_accept hwin hlt
          (by show acc.length < cfg.maxRequestsPerHour; omega)
      have hadm : admitAt cfg ⟨acc⟩ t t = (true, ⟨acc ++ [t]⟩) := by
        rw [admitAt, hchk]
        rfl
      have haccwin : ∀ x ∈ acc ++ [t], T ≤ x ∧ x < T + 60 * 1000 := by
        intro x hx
        rcases List.mem_append.mp hx with hx | hx
        · exact hacc x hx
        · rw [List.mem_singleton.mp hx]
          exact hwt
      have hih := ih (acc ++ [t])
        (by simp only [List.length_append, List.length_cons, List.length_nil]; omega)
        (by simp only [List.length_append, List.length_cons, List.length_nil]; omega)
        haccwin hrest'
      simp only [hadm, hih]
      have hsub : cfg.maxRequestsPerMinute - acc.length =
          (cfg.maxRequestsPerMinute - (acc ++ [t]).length) + 1 := by
        simp only [List.length_append, List.length_cons, List.length_nil]
        omega
      rw [hsub, List.replicate_succ, List.take_succ_cons]
      simp [List.append_assoc]

/-- Claim C4: starting fresh, with the long-window cap above the short-window
cap, a run of admission rounds all inside one short window admits exactly
the first `maxRequestsPerMinute` requests (appending each admitted
timestamp) and rejects the following one without appending it; with
`maxRequestsPerMinute = 2` three calls within a minute yield
`[true, true, false]`. -/
theorem claim_C4_limiter_sequence (cfg : RateLimitConfig) (T : Int) (ts : List Int)
    (hcap : cfg.maxRequestsPerMinute < cfg.maxRequestsPerHour)
    (hlen : ts.length = cfg.maxRequestsPerMinute + 1)
    (hwin : ∀ t ∈ ts, T ≤ t ∧ t < T + 60 * 1000) :
    admitSeq cfg ⟨[]⟩ ts =
      (List.replicate cfg.maxRequestsPerMinute true ++ [false],
       ⟨ts.take cfg.maxRequestsPerMinute⟩) := by
  have h := admitSeq_run cfg T hcap ts []
    (by simpa using hlen) (by simp) (by simp) hwin
  simpa using h

/-- Claim C4 witness: `maxRequestsPerMinute = 2`, three calls within one minute
yield `[true, true, false]`, retaining only the two admitted timestamps. -/
theorem claim_C4_witness :
    admitSeq ⟨2, 100⟩ ⟨[]⟩ [0, 10000, 20000] =
      ([true, true, false], ⟨[0, 10000]⟩) := by
  have h := claim_C4_limiter_sequence ⟨2, 100⟩ 0 [0, 10000, 20000]
    (by decide) (by decide) (by decide)
  rw [h]
  rfl

end Instalite
